import Mathlib

/-!
# ArcGIS Runtime Qt samples: ShowCallout and ServiceFeatureTableNoCache

A shallow embedding of the two `componentComplete` hooks and of the `mouseClick`
lambda of `ShowCallout.cpp`.  The mapping SDK is closed source: its objects are
modelled by the fields the samples read and write, its two geometry conversions
(`MapQuickView::screenToLocation`, `GeometryEngine::project`) are uninterpreted
functions, and every call the samples make is appended to a call trace so that
ordering properties can be stated.

Objects created with `new` live in heaps (lists indexed by address), because the
samples keep mutating a map after handing its pointer to the view.
-/

namespace ArcGIS

/-! ## SDK value types -/

/-- A heap address: the index of the object in its heap list. -/
abbrev Ptr := Nat

/-- A decimal literal of the source text, `mantissa * 10 ^ (-scale)`, kept exact.
No arithmetic is ever done on these values by the samples. -/
structure Decimal where
  mantissa : Int
  scale : Nat
  deriving DecidableEq

/-- The SDK class `SpatialReference`, built from a well-known id. -/
structure SpatialReference where
  wkid : Nat
  deriving DecidableEq

/-- The SDK class `Envelope(xMin, yMin, xMax, yMax, spatialReference)`. -/
structure Envelope where
  xMin : Decimal
  yMin : Decimal
  xMax : Decimal
  yMax : Decimal
  spatialReference : SpatialReference
  deriving DecidableEq

/-- The SDK class `Viewpoint`, built from a target extent. -/
structure Viewpoint where
  targetGeometry : Envelope
  deriving DecidableEq

/-- The basemap factories of the SDK; the samples only call `Basemap::topographic`. -/
inductive Basemap
  | topographic
  deriving DecidableEq

/-- The SDK enumeration `WrapAroundMode`. -/
inductive WrapAroundMode
  | EnabledWhenSupported
  | Disabled
  deriving DecidableEq

/-- The SDK enumeration `FeatureRequestMode`. -/
inductive FeatureRequestMode
  | Undefined
  | OnInteractionCache
  | OnInteractionNoCache
  | ManualCache
  deriving DecidableEq

/-- The SDK class `ServiceFeatureTable`: a service endpoint and a request mode. -/
structure ServiceFeatureTable where
  url : String
  featureRequestMode : FeatureRequestMode
  deriving DecidableEq

/-- The SDK class `FeatureLayer`: it points at the feature table it draws. -/
structure FeatureLayer where
  featureTable : Ptr
  deriving DecidableEq

/-- The SDK class `Map`: basemap, initial viewpoint (unset on construction) and the
operational-layer list model, holding pointers to layers. -/
structure Map where
  basemap : Basemap
  initialViewpoint : Option Viewpoint
  operationalLayers : List Ptr
  deriving DecidableEq

/-- The SDK class `CalloutData`, over an abstract type `P` of map points. -/
structure CalloutData (P : Type) where
  visible : Bool
  title : String
  imageUrl : String
  location : P
  detail : String
  deriving DecidableEq

/-- The slots this repository connects to `MapQuickView::mouseClick`: the one lambda
of `ShowCallout::componentComplete` (lines 57-71). -/
inductive Slot
  | showCalloutMouseClick
  deriving DecidableEq

/-- The SDK class `MapQuickView`: the display child named "mapView" of the QML tree.
`mouseClick` is the list of slots connected to the signal of that name, in
connection order. -/
structure MapQuickView (P : Type) where
  wrapAroundMode : WrapAroundMode
  map : Option Ptr
  calloutData : CalloutData P
  mouseClick : List Slot

/-- The Qt class `QMouseEvent`: `x()` and `y()` return `int` screen coordinates. -/
structure QMouseEvent where
  x : Int
  y : Int
  deriving DecidableEq

/-- The two geometry conversions of the SDK, left uninterpreted.
`screenToLocation` is a method of the view, so it receives the view. -/
structure GeometryFns (P : Type) where
  screenToLocation : MapQuickView P → Int → Int → P
  project : P → SpatialReference → P

/-- The Qt function `QString::number(int)`: base-ten digits, with a leading minus
sign for a negative number. -/
def QString.number (n : Int) : String :=
  match n with
  | Int.ofNat m => Nat.repr m
  | Int.negSucc m => "-" ++ Nat.repr (m + 1)

/-! ## Call trace -/

/-- The framework and SDK calls made by the samples, in the order they are made. -/
inductive Call (P : Type)
  | componentCompleteBase
  | findChild (name : String)
  | setWrapAroundMode (mode : WrapAroundMode)
  | newMap (map : Ptr) (basemap : Basemap)
  | setInitialViewpoint (map : Ptr) (viewpoint : Viewpoint)
  | setMap (map : Ptr)
  | setVisible (visible : Bool)
  | setTitle (title : String)
  | setImageUrl (url : String)
  | setLocation (location : P)
  | setDetail (detail : String)
  | connectMouseClick (slot : Slot)
  | screenToLocation (x : Int) (y : Int)
  | project (spatialReference : SpatialReference)
  | newServiceFeatureTable (table : Ptr) (url : String)
  | setFeatureRequestMode (table : Ptr) (mode : FeatureRequestMode)
  | newFeatureLayer (layer : Ptr) (table : Ptr)
  | appendOperationalLayer (map : Ptr) (layer : Ptr)
  | qDebug

/-- Whether a call writes the wrap-around mode of the view. -/
def Call.isSetWrapAroundMode {P : Type} : Call P → Bool
  | Call.setWrapAroundMode _ => true
  | _ => false

/-- Whether a call is one of the two coordinate conversions. -/
def Call.isConversion {P : Type} : Call P → Bool
  | Call.screenToLocation _ _ => true
  | Call.project _ => true
  | _ => false

/-- Whether a call binds a map to the view. -/
def Call.isSetMap {P : Type} : Call P → Bool
  | Call.setMap _ => true
  | _ => false

/-- Whether a call appends a layer to a map. -/
def Call.isAppendOperationalLayer {P : Type} : Call P → Bool
  | Call.appendOperationalLayer _ _ => true
  | _ => false

/-- Whether a call connects a slot to the mouse-click signal. -/
def Call.isConnectMouseClick {P : Type} : Call P → Bool
  | Call.connectMouseClick _ => true
  | _ => false

/-! ## The world the samples act on -/

/-- Everything the samples can reach: the view found in the QML tree, the heaps of
objects created with `new`, and the trace of calls made so far. -/
structure World (P : Type) where
  mapView : MapQuickView P
  maps : List Map
  featureTables : List ServiceFeatureTable
  featureLayers : List FeatureLayer
  trace : List (Call P)

/-- Apply `f` to the object at address `p` (a write through a pointer). -/
def updateAt {α : Type} (f : α → α) : Ptr → List α → List α
  | _, [] => []
  | 0, a :: t => f a :: t
  | p + 1, a :: t => a :: updateAt f p t

namespace World

variable {P : Type}

/-- Record a call at the end of the trace. -/
def log (w : World P) (c : Call P) : World P :=
  { w with trace := w.trace ++ [c] }

/-- The call `findChild<MapQuickView*>(name)`: the view is a field of the world, so
the call is only recorded. -/
def findChild (w : World P) (name : String) : World P :=
  w.log (Call.findChild name)

/-- The call `m_mapView->setWrapAroundMode(mode)`. -/
def setWrapAroundMode (w : World P) (mode : WrapAroundMode) : World P :=
  ({ w with mapView := { w.mapView with wrapAroundMode := mode } }).log
    (Call.setWrapAroundMode mode)

/-- The expression `new Map(basemap, parent)`: a fresh map at the next address. -/
def newMap (w : World P) (basemap : Basemap) : Ptr × World P :=
  (w.maps.length,
    ({ w with maps := w.maps ++ [Map.mk basemap none []] }).log
      (Call.newMap w.maps.length basemap))

/-- The call `map->setInitialViewpoint(viewpoint)`. -/
def setInitialViewpoint (w : World P) (map : Ptr) (viewpoint : Viewpoint) : World P :=
  let maps := updateAt (fun m => { m with initialViewpoint := some viewpoint }) map w.maps
  ({ w with maps := maps }).log (Call.setInitialViewpoint map viewpoint)

/-- The call `m_mapView->setMap(map)`. -/
def setMap (w : World P) (map : Ptr) : World P :=
  ({ w with mapView := { w.mapView with map := some map } }).log (Call.setMap map)

/-- The call `m_mapView->calloutData()->setVisible(visible)`. -/
def calloutSetVisible (w : World P) (visible : Bool) : World P :=
  ({ w with mapView := { w.mapView with
      calloutData := { w.mapView.calloutData with visible := visible } } }).log
    (Call.setVisible visible)

/-- The call `m_mapView->calloutData()->setTitle(title)`. -/
def calloutSetTitle (w : World P) (title : String) : World P :=
  ({ w with mapView := { w.mapView with
      calloutData := { w.mapView.calloutData with title := title } } }).log
    (Call.setTitle title)

/-- The call `m_mapView->calloutData()->setImageUrl(url)`. -/
def calloutSetImageUrl (w : World P) (url : String) : World P :=
  ({ w with mapView := { w.mapView with
      calloutData := { w.mapView.calloutData with imageUrl := url } } }).log
    (Call.setImageUrl url)

/-- The call `m_mapView->calloutData()->setLocation(location)`. -/
def calloutSetLocation (w : World P) (location : P) : World P :=
  ({ w with mapView := { w.mapView with
      calloutData := { w.mapView.calloutData with location := location } } }).log
    (Call.setLocation location)

/-- The call `m_mapView->calloutData()->setDetail(detail)`. -/
def calloutSetDetail (w : World P) (detail : String) : World P :=
  ({ w with mapView := { w.mapView with
      calloutData := { w.mapView.calloutData with detail := detail } } }).log
    (Call.setDetail detail)

/-- The call `connect(m_mapView, &MapQuickView::mouseClick, slot)`. -/
def connectMouseClick (w : World P) (slot : Slot) : World P :=
  ({ w with mapView := { w.mapView with mouseClick := w.mapView.mouseClick ++ [slot] } }).log
    (Call.connectMouseClick slot)

/-- The call `m_mapView->screenToLocation(x, y)`: reads the view, returns a point. -/
def screenToLocation (g : GeometryFns P) (w : World P) (x y : Int) : P × World P :=
  (g.screenToLocation w.mapView x y, w.log (Call.screenToLocation x y))

/-- The call `GeometryEngine::project(point, spatialReference)`. -/
def project (g : GeometryFns P) (w : World P) (point : P) (sr : SpatialReference) :
    P × World P :=
  (g.project point sr, w.log (Call.project sr))

/-- The expression `new ServiceFeatureTable(url, parent)`; the request mode starts
at the SDK default, `OnInteractionCache`. -/
def newServiceFeatureTable (w : World P) (url : String) : Ptr × World P :=
  (w.featureTables.length,
    ({ w with featureTables :=
        w.featureTables ++ [ServiceFeatureTable.mk url FeatureRequestMode.OnInteractionCache] }).log
      (Call.newServiceFeatureTable w.featureTables.length url))

/-- The call `table->setFeatureRequestMode(mode)`. -/
def setFeatureRequestMode (w : World P) (table : Ptr) (mode : FeatureRequestMode) :
    World P :=
  let tables := updateAt (fun t => { t with featureRequestMode := mode }) table w.featureTables
  ({ w with featureTables := tables }).log (Call.setFeatureRequestMode table mode)

/-- The expression `new FeatureLayer(table, parent)`. -/
def newFeatureLayer (w : World P) (table : Ptr) : Ptr × World P :=
  (w.featureLayers.length,
    ({ w with featureLayers := w.featureLayers ++ [FeatureLayer.mk table] }).log
      (Call.newFeatureLayer w.featureLayers.length table))

/-- The call `map->operationalLayers()->append(layer)`. -/
def appendOperationalLayer (w : World P) (map : Ptr) (layer : Ptr) : World P :=
  let maps := updateAt (fun m => { m with operationalLayers := m.operationalLayers ++ [layer] })
    map w.maps
  ({ w with maps := maps }).log (Call.appendOperationalLayer map layer)

/-- The map currently bound to the view, read through the pointer the view holds. -/
def boundMap (w : World P) : Option Map :=
  match w.mapView.map with
  | some p => w.maps[p]?
  | none => none

end World

/-! ## ShowCallout.cpp -/

/-- Modelled from the spec: the class declaration of `ShowCallout.h` is not among the
sources; this is the state the member functions of `ShowCallout.cpp` use.  The
member `m_mapView` always refers to the one display child of the world, so only
`m_map` is a field (`none` is `nullptr`, as the constructor sets it). -/
structure ShowCallout (P : Type) where
  m_map : Option Ptr
  world : World P

namespace ShowCallout

variable {P : Type}

/-- The spatial reference literal `SpatialReference(102100)` of lines 47 and 62. -/
def webMercator : SpatialReference := SpatialReference.mk 102100

/-- The envelope literal of line 47. -/
def initialEnvelope : Envelope :=
  Envelope.mk (Decimal.mk (-130758164047166) 7) (Decimal.mk 401477146954516 8)
    (Decimal.mk (-130730056797177) 7) (Decimal.mk 401686978617381 8) (SpatialReference.mk 102100)

/-- The lambda connected to `mouseClick` (lines 57-71). -/
def mouseClickLambda (g : GeometryFns P) (mouseEvent : QMouseEvent) (w : World P) : World P :=
  let w :=
    if w.mapView.calloutData.visible then
      w.calloutSetVisible false
    else
      let r := w.screenToLocation g mouseEvent.x mouseEvent.y
      let q := r.2.project g r.1 (SpatialReference.mk 102100)
      let mapPoint := q.1
      let w := q.2.calloutSetLocation mapPoint
      let w := w.calloutSetDetail
        ("lat: " ++ QString.number mouseEvent.x ++ " long: " ++ QString.number mouseEvent.y)
      w.calloutSetVisible true
  let w := w.log Call.qDebug
  let w := w.log Call.qDebug
  w.log Call.qDebug

/-- The member function `ShowCallout::componentComplete` (lines 37-72). -/
def componentComplete (self : ShowCallout P) : ShowCallout P :=
  let w := self.world.log Call.componentCompleteBase
  let w := w.findChild "mapView"
  let w := w.setWrapAroundMode WrapAroundMode.Disabled
  let r := w.newMap Basemap.topographic
  let m_map := r.1
  let w := r.2.setInitialViewpoint m_map (Viewpoint.mk initialEnvelope)
  let w := w.setMap m_map
  let w := w.calloutSetVisible false
  let w := w.calloutSetTitle "Location"
  let w := w.calloutSetImageUrl "qrc:/Samples/DisplayInformation/ShowCallout/RedShinyPin.png"
  let w := w.connectMouseClick Slot.showCalloutMouseClick
  { m_map := some m_map, world := w }

end ShowCallout

/-! ## Signal delivery -/

/-- Run one connected slot. -/
def Slot.run {P : Type} (g : GeometryFns P) : Slot → QMouseEvent → World P → World P
  | Slot.showCalloutMouseClick, e, w => ShowCallout.mouseClickLambda g e w

/-- One pointer click inside the display: the view emits `mouseClick` and Qt runs
the slots connected at that moment, in connection order. -/
def World.emitMouseClick {P : Type} (g : GeometryFns P) (e : QMouseEvent) (w : World P) :
    World P :=
  w.mapView.mouseClick.foldl (fun v s => s.run g e v) w

/-- A finite sequence of clicks, delivered one after the other. -/
def World.clicks {P : Type} (g : GeometryFns P) (es : List QMouseEvent) (w : World P) :
    World P :=
  es.foldl (fun v e => v.emitMouseClick g e) w

/-! ## ServiceFeatureTableNoCache.cpp -/

/-- Modelled from the spec: the class declaration of `ServiceFeatureTableNoCache.h` is
not among the sources; this is the state `componentComplete` uses.  The member
`m_mapView` always refers to the one display child of the world; the three other
pointer members are fields (`none` is a null pointer). -/
structure ServiceFeatureTableNoCache (P : Type) where
  m_map : Option Ptr
  m_featureTable : Option Ptr
  m_featureLayer : Option Ptr
  world : World P

namespace ServiceFeatureTableNoCache

variable {P : Type}

/-- The service endpoint literal of line 60. -/
def serviceUrl : String :=
  "http://sampleserver6.arcgisonline.com/arcgis/rest/services/PoolPermits/FeatureServer/0"

/-- The envelope literal of line 54. -/
def initialEnvelope : Envelope :=
  Envelope.mk (Decimal.mk (-130758164047166) 7) (Decimal.mk 401477146954516 8)
    (Decimal.mk (-130730056797177) 7) (Decimal.mk 401686978617381 8) (SpatialReference.mk 102100)

/-- The member function `ServiceFeatureTableNoCache::componentComplete` (lines 44-70). -/
def componentComplete (self : ServiceFeatureTableNoCache P) : ServiceFeatureTableNoCache P :=
  let w := self.world.log Call.componentCompleteBase
  let w := w.findChild "mapView"
  let w := w.setWrapAroundMode WrapAroundMode.Disabled
  let r := w.newMap Basemap.topographic
  let m_map := r.1
  let w := r.2.setInitialViewpoint m_map (Viewpoint.mk initialEnvelope)
  let w := w.setMap m_map
  let t := w.newServiceFeatureTable serviceUrl
  let m_featureTable := t.1
  let w := t.2.setFeatureRequestMode m_featureTable FeatureRequestMode.OnInteractionNoCache
  let l := w.newFeatureLayer m_featureTable
  let m_featureLayer := l.1
  let w := l.2.appendOperationalLayer m_map m_featureLayer
  { m_map := some m_map, m_featureTable := some m_featureTable,
    m_featureLayer := some m_featureLayer, world := w }

end ServiceFeatureTableNoCache

/-! ## Reading the trace -/

/-- The calls made while going from world `w0` to world `w1`. -/
def World.callsSince {P : Type} (w0 w1 : World P) : List (Call P) :=
  w1.trace.drop w0.trace.length

/-- Whether some call satisfying `p` is followed, later in the trace, by a call
satisfying `q`. -/
def occursBefore {P : Type} (p q : Call P → Bool) : List (Call P) → Bool
  | [] => false
  | c :: t => (p c && t.any q) || occursBefore p q t

/-- What no click ever writes: everything of the world but the callout visible
flag, location and detail text, and the trace. -/
def frame {P : Type} (w : World P) :
    WrapAroundMode × Option Ptr × List Slot × String × String × List Map ×
      List ServiceFeatureTable × List FeatureLayer :=
  (w.mapView.wrapAroundMode, w.mapView.map, w.mapView.mouseClick, w.mapView.calloutData.title,
    w.mapView.calloutData.imageUrl, w.maps, w.featureTables, w.featureLayers)

/-- The 1-based index of the last odd-indexed click among `n` clicks: `n` itself when
`n` is odd, `n - 1` when `n` is even. -/
def lastOddIndex (n : Nat) : Nat :=
  if n % 2 = 1 then n else n - 1

/-! ## Concrete objects used to evaluate the model -/

/-- A concrete point type for evaluation: a pair of integers with a well-known id. -/
structure GridPoint where
  x : Int
  y : Int
  wkid : Nat
  deriving DecidableEq

/-- A concrete pair of conversions for evaluation: the screen position shifted by a
fixed origin, and a projection that rewrites the well-known id. -/
def gridFns : GeometryFns GridPoint where
  screenToLocation := fun _ x y => GridPoint.mk (x + 1000) (y + 2000) 4326
  project := fun p sr => GridPoint.mk p.x p.y sr.wkid

/-- A freshly built QML tree: a display child with SDK defaults, empty heaps, no
slot connected, nothing called yet. -/
def freshWorld : World GridPoint where
  mapView :=
    { wrapAroundMode := WrapAroundMode.EnabledWhenSupported
      map := none
      calloutData := CalloutData.mk false "" "" (GridPoint.mk 0 0 0) ""
      mouseClick := [] }
  maps := []
  featureTables := []
  featureLayers := []
  trace := []

/-! ## Helper lemmas: heap writes -/

theorem updateAt_length_append {α : Type} (f : α → α) (l : List α) (a : α) :
    updateAt f l.length (l ++ [a]) = l ++ [f a] := by
  induction l with
  | nil => rfl
  | cons b t ih => simp [updateAt, ih]

theorem getElem?_length_append {α : Type} (l : List α) (a : α) :
    (l ++ [a])[l.length]? = some a := by
  induction l with
  | nil => rfl
  | cons b t ih => simp

/-! ## Helper lemmas: the click lambda -/

section Lambda

variable {P : Type} (g : GeometryFns P)

theorem mouseClickLambda_of_visible (e : QMouseEvent) (w : World P)
    (h : w.mapView.calloutData.visible = true) :
    ShowCallout.mouseClickLambda g e w =
      { w with
        mapView := { w.mapView with calloutData := { w.mapView.calloutData with visible := false } }
        trace := w.trace ++ [Call.setVisible false, Call.qDebug, Call.qDebug, Call.qDebug] } := by
  simp [ShowCallout.mouseClickLambda, h, World.calloutSetVisible, World.log]

theorem mouseClickLambda_of_hidden (e : QMouseEvent) (w : World P)
    (h : w.mapView.calloutData.visible = false) :
    ShowCallout.mouseClickLambda g e w =
      { w with
        mapView := { w.mapView with
          calloutData := { w.mapView.calloutData with
            visible := true
            location := g.project (g.screenToLocation w.mapView e.x e.y) (SpatialReference.mk 102100)
            detail := "lat: " ++ QString.number e.x ++ " long: " ++ QString.number e.y } }
        trace := w.trace ++
          [Call.screenToLocation e.x e.y, Call.project (SpatialReference.mk 102100),
           Call.setLocation
             (g.project (g.screenToLocation w.mapView e.x e.y) (SpatialReference.mk 102100)),
           Call.setDetail ("lat: " ++ QString.number e.x ++ " long: " ++ QString.number e.y),
           Call.setVisible true, Call.qDebug, Call.qDebug, Call.qDebug] } := by
  simp [ShowCallout.mouseClickLambda, h, World.calloutSetVisible, World.log,
    World.screenToLocation, World.project, World.calloutSetLocation, World.calloutSetDetail]

theorem frame_mouseClickLambda (e : QMouseEvent) (w : World P) :
    frame (ShowCallout.mouseClickLambda g e w) = frame w := by
  cases h : w.mapView.calloutData.visible
  · rw [mouseClickLambda_of_hidden g e w h]; rfl
  · rw [mouseClickLambda_of_visible g e w h]; rfl

theorem frame_foldl_run (e : QMouseEvent) (slots : List Slot) (w : World P) :
    frame (slots.foldl (fun v s => s.run g e v) w) = frame w := by
  induction slots generalizing w with
  | nil => rfl
  | cons s t ih =>
    cases s
    rw [List.foldl_cons, ih]
    exact frame_mouseClickLambda g e w

theorem frame_emitMouseClick (e : QMouseEvent) (w : World P) :
    frame (w.emitMouseClick g e) = frame w :=
  frame_foldl_run g e _ w

theorem frame_clicks (es : List QMouseEvent) (w : World P) :
    frame (w.clicks g es) = frame w := by
  induction es generalizing w with
  | nil => rfl
  | cons e t ih =>
    simp only [World.clicks, List.foldl_cons] at ih ⊢
    rw [ih, frame_emitMouseClick]

theorem boundMap_eq_of_frame {v w : World P} (h : frame v = frame w) :
    v.boundMap = w.boundMap := by
  simp only [frame, Prod.mk.injEq] at h
  obtain ⟨-, h2, -, -, -, h6, -, -⟩ := h
  simp [World.boundMap, h2, h6]

theorem emitMouseClick_of_single (e : QMouseEvent) (w : World P)
    (h : w.mapView.mouseClick = [Slot.showCalloutMouseClick]) :
    w.emitMouseClick g e = ShowCallout.mouseClickLambda g e w := by
  simp [World.emitMouseClick, h, Slot.run]

theorem mouseClick_clicks (es : List QMouseEvent) (w : World P) :
    (w.clicks g es).mapView.mouseClick = w.mapView.mouseClick :=
  congrArg (fun f => f.2.2.1) (frame_clicks g es w)

theorem clicks_append (es fs : List QMouseEvent) (w : World P) :
    w.clicks g (es ++ fs) = (w.clicks g es).clicks g fs := by
  simp [World.clicks, List.foldl_append]

end Lambda

/-! ## Helper lemmas: the two setup hooks -/

section Setup

variable {P : Type}

theorem ShowCallout.componentComplete_world (self : ShowCallout P) :
    self.componentComplete.world =
      { mapView :=
          { wrapAroundMode := WrapAroundMode.Disabled
            map := some self.world.maps.length
            calloutData :=
              { self.world.mapView.calloutData with
                visible := false
                title := "Location"
                imageUrl := "qrc:/Samples/DisplayInformation/ShowCallout/RedShinyPin.png" }
            mouseClick := self.world.mapView.mouseClick ++ [Slot.showCalloutMouseClick] }
        maps := self.world.maps ++
          [Map.mk Basemap.topographic (some (Viewpoint.mk ShowCallout.initialEnvelope)) []]
        featureTables := self.world.featureTables
        featureLayers := self.world.featureLayers
        trace := self.world.trace ++
          [Call.componentCompleteBase, Call.findChild "mapView",
           Call.setWrapAroundMode WrapAroundMode.Disabled,
           Call.newMap self.world.maps.length Basemap.topographic,
           Call.setInitialViewpoint self.world.maps.length
             (Viewpoint.mk ShowCallout.initialEnvelope),
           Call.setMap self.world.maps.length, Call.setVisible false, Call.setTitle "Location",
           Call.setImageUrl "qrc:/Samples/DisplayInformation/ShowCallout/RedShinyPin.png",
           Call.connectMouseClick Slot.showCalloutMouseClick] } := by
  simp [ShowCallout.componentComplete, World.log, World.findChild, World.setWrapAroundMode,
    World.newMap, World.setInitialViewpoint, World.setMap, World.calloutSetVisible,
    World.calloutSetTitle, World.calloutSetImageUrl, World.connectMouseClick,
    updateAt_length_append]

theorem ServiceFeatureTableNoCache.componentComplete_eq (self : ServiceFeatureTableNoCache P) :
    self.componentComplete =
      { m_map := some self.world.maps.length
        m_featureTable := some self.world.featureTables.length
        m_featureLayer := some self.world.featureLayers.length
        world :=
          { mapView :=
              { self.world.mapView with
                wrapAroundMode := WrapAroundMode.Disabled
                map := some self.world.maps.length }
            maps := self.world.maps ++
              [Map.mk Basemap.topographic
                (some (Viewpoint.mk ServiceFeatureTableNoCache.initialEnvelope))
                [self.world.featureLayers.length]]
            featureTables := self.world.featureTables ++
              [ServiceFeatureTable.mk ServiceFeatureTableNoCache.serviceUrl
                FeatureRequestMode.OnInteractionNoCache]
            featureLayers := self.world.featureLayers ++
              [FeatureLayer.mk self.world.featureTables.length]
            trace := self.world.trace ++
              [Call.componentCompleteBase, Call.findChild "mapView",
               Call.setWrapAroundMode WrapAroundMode.Disabled,
               Call.newMap self.world.maps.length Basemap.topographic,
               Call.setInitialViewpoint self.world.maps.length
                 (Viewpoint.mk ServiceFeatureTableNoCache.initialEnvelope),
               Call.setMap self.world.maps.length,
               Call.newServiceFeatureTable self.world.featureTables.length
                 ServiceFeatureTableNoCache.serviceUrl,
               Call.setFeatureRequestMode self.world.featureTables.length
                 FeatureRequestMode.OnInteractionNoCache,
               Call.newFeatureLayer self.world.featureLayers.length
                 self.world.featureTables.length,
               Call.appendOperationalLayer self.world.maps.length
                 self.world.featureLayers.length] } } := by
  simp [ServiceFeatureTableNoCache.componentComplete, World.log, World.findChild,
    World.setWrapAroundMode, World.newMap, World.setInitialViewpoint, World.setMap,
    World.newServiceFeatureTable, World.setFeatureRequestMode, World.newFeatureLayer,
    World.appendOperationalLayer, updateAt_length_append]

theorem callsSince_append (w0 w1 : World P) (t : List (Call P))
    (h : w1.trace = w0.trace ++ t) : w0.callsSince w1 = t := by
  simp [World.callsSince, h]

end Setup

section Toggle

variable {P : Type} (g : GeometryFns P)

theorem visible_mouseClickLambda (e : QMouseEvent) (w : World P) :
    (ShowCallout.mouseClickLambda g e w).mapView.calloutData.visible =
      !w.mapView.calloutData.visible := by
  cases h : w.mapView.calloutData.visible
  · rw [mouseClickLambda_of_hidden g e w h]; rfl
  · rw [mouseClickLambda_of_visible g e w h]; rfl

theorem visible_clicks (es : List QMouseEvent) (w : World P)
    (h : w.mapView.mouseClick = [Slot.showCalloutMouseClick]) :
    (w.clicks g es).mapView.calloutData.visible =
      xor w.mapView.calloutData.visible (decide (es.length % 2 = 1)) := by
  induction es generalizing w with
  | nil => simp [World.clicks]
  | cons e t ih =>
    have hs : (w.emitMouseClick g e).mapView.mouseClick = [Slot.showCalloutMouseClick] := by
      rw [← h]; exact congrArg (fun f => f.2.2.1) (frame_emitMouseClick g e w)
    have step : World.clicks g (e :: t) w = World.clicks g t (w.emitMouseClick g e) := rfl
    rw [step, ih _ hs, emitMouseClick_of_single g e w h, visible_mouseClickLambda]
    have hpar : (t.length + 1) % 2 = 1 ↔ ¬ (t.length % 2 = 1) := by omega
    cases w.mapView.calloutData.visible <;> by_cases hp : t.length % 2 = 1 <;>
      simp [hp, hpar]

end Toggle

section LastOdd

variable {P : Type} (g : GeometryFns P)

theorem split_last_one (es : List QMouseEvent) (i : Nat) (h : i + 1 = es.length) :
    ∃ c, es[i]? = some c ∧ es = es.take i ++ [c] := by
  have hd : (es.drop i).length = 1 := by rw [List.length_drop]; omega
  obtain ⟨c, hc⟩ := List.length_eq_one.mp hd
  refine ⟨c, ?_, ?_⟩
  · have h0 : (es.drop i)[0]? = some c := by rw [hc]; rfl
    rw [List.getElem?_drop] at h0
    simpa using h0
  · rw [← hc, List.take_append_drop]

theorem split_last_two (es : List QMouseEvent) (i : Nat) (h : i + 2 = es.length) :
    ∃ c d, es[i]? = some c ∧ es = es.take i ++ [c, d] := by
  have hd : (es.drop i).length = 2 := by rw [List.length_drop]; omega
  obtain ⟨c, d, hc⟩ := List.length_eq_two.mp hd
  refine ⟨c, d, ?_, ?_⟩
  · have h0 : (es.drop i)[0]? = some c := by rw [hc]; rfl
    rw [List.getElem?_drop] at h0
    simpa using h0
  · rw [← hc, List.take_append_drop]

theorem clicks_single (e : QMouseEvent) (w : World P) :
    w.clicks g [e] = w.emitMouseClick g e := rfl

theorem clicks_pair (e d : QMouseEvent) (w : World P) :
    w.clicks g [e, d] = (w.emitMouseClick g e).emitMouseClick g d := rfl

/-- A show-then-hide pair of clicks: the callout ends hidden, with the detail text and
location of the first click of the pair. -/
theorem calloutData_pair (e d : QMouseEvent) (w : World P)
    (hs : w.mapView.mouseClick = [Slot.showCalloutMouseClick])
    (hv : w.mapView.calloutData.visible = false) :
    (w.clicks g [e, d]).mapView.calloutData =
      { w.mapView.calloutData with
        visible := false
        location := g.project (g.screenToLocation w.mapView e.x e.y) (SpatialReference.mk 102100)
        detail := "lat: " ++ QString.number e.x ++ " long: " ++ QString.number e.y } := by
  have h1 : w.emitMouseClick g e = ShowCallout.mouseClickLambda g e w :=
    emitMouseClick_of_single g e w hs
  have hs1 : (ShowCallout.mouseClickLambda g e w).mapView.mouseClick =
      [Slot.showCalloutMouseClick] := by
    rw [mouseClickLambda_of_hidden g e w hv]; exact hs
  have hv1 : (ShowCallout.mouseClickLambda g e w).mapView.calloutData.visible = true := by
    rw [mouseClickLambda_of_hidden g e w hv]
  rw [clicks_pair, h1, emitMouseClick_of_single g d _ hs1, mouseClickLambda_of_visible g d _ hv1,
    mouseClickLambda_of_hidden g e w hv]

/-- The world after a show-then-hide pair does not depend on the second click. -/
theorem clicks_pair_second_irrelevant (e d d2 : QMouseEvent) (w : World P)
    (hs : w.mapView.mouseClick = [Slot.showCalloutMouseClick])
    (hv : w.mapView.calloutData.visible = false) :
    w.clicks g [e, d] = w.clicks g [e, d2] := by
  have h1 : w.emitMouseClick g e = ShowCallout.mouseClickLambda g e w :=
    emitMouseClick_of_single g e w hs
  have hs1 : (ShowCallout.mouseClickLambda g e w).mapView.mouseClick =
      [Slot.showCalloutMouseClick] := by
    rw [mouseClickLambda_of_hidden g e w hv]; exact hs
  have hv1 : (ShowCallout.mouseClickLambda g e w).mapView.calloutData.visible = true := by
    rw [mouseClickLambda_of_hidden g e w hv]
  rw [clicks_pair, clicks_pair, h1, emitMouseClick_of_single g d _ hs1,
    emitMouseClick_of_single g d2 _ hs1, mouseClickLambda_of_visible g d _ hv1,
    mouseClickLambda_of_visible g d2 _ hv1]

theorem hidden_after_even (es : List QMouseEvent) (w : World P)
    (hs : w.mapView.mouseClick = [Slot.showCalloutMouseClick])
    (hv : w.mapView.calloutData.visible = false) (he : es.length % 2 = 0) :
    (w.clicks g es).mapView.calloutData.visible = false := by
  rw [visible_clicks g es w hs, hv]
  simp [he]

/-- Two click sequences of the same length that agree at every odd 1-based position
(even 0-based index) lead from a hidden callout to the same world. -/
theorem clicks_congr_of_odd_agree :
    ∀ (es fs : List QMouseEvent) (w : World P),
      w.mapView.mouseClick = [Slot.showCalloutMouseClick] →
      w.mapView.calloutData.visible = false →
      fs.length = es.length → (∀ i, i % 2 = 0 → fs[i]? = es[i]?) →
      w.clicks g fs = w.clicks g es
  | [], [], _, _, _, _, _ => rfl
  | [], _ :: _, _, _, _, hl, _ => by simp at hl
  | _ :: _, [], _, _, _, hl, _ => by simp at hl
  | [e], [f], w, _, _, _, ha => by
    have h0 := ha 0 (by decide)
    simp only [List.getElem?_cons_zero, Option.some.injEq] at h0
    rw [h0]
  | [_], _ :: _ :: _, _, _, _, hl, _ => by simp at hl
  | _ :: _ :: _, [_], _, _, _, hl, _ => by simp at hl
  | e :: d :: es, f :: d2 :: fs, w, hs, hv, hl, ha => by
    have h0 := ha 0 (by decide)
    simp only [List.getElem?_cons_zero, Option.some.injEq] at h0
    subst h0
    have hsplit : ∀ (a b : QMouseEvent) (l : List QMouseEvent),
        w.clicks g (a :: b :: l) = (w.clicks g [a, b]).clicks g l := fun _ _ _ => rfl
    rw [hsplit, hsplit, clicks_pair_second_irrelevant g f d2 d w hs hv]
    apply clicks_congr_of_odd_agree es fs (w.clicks g [f, d])
    · rw [mouseClick_clicks]; exact hs
    · exact hidden_after_even g [f, d] w hs hv (by simp)
    · simpa using hl
    · intro i hi
      have := ha (i + 2) (by omega)
      simpa using this

end LastOdd

/-! ## The claims -/

section Claims

variable {P : Type}

/-- C1: after `ShowCallout::componentComplete`, run on a view that has no slot
connected yet, the callout is visible after the k-th click of any click sequence
exactly when k is odd, whatever the screen coordinates of the clicks. -/
theorem C1_visibility_alternates (g : GeometryFns P) (self : ShowCallout P)
    (h : self.world.mapView.mouseClick = []) (es : List QMouseEvent) (k : Nat)
    (hk : k ≤ es.length) :
    ((self.componentComplete.world.clicks g (es.take k)).mapView.calloutData.visible = true
      ↔ k % 2 = 1) := by
  have hs : self.componentComplete.world.mapView.mouseClick = [Slot.showCalloutMouseClick] := by
    rw [ShowCallout.componentComplete_world]; simp [h]
  have hv : self.componentComplete.world.mapView.calloutData.visible = false := by
    rw [ShowCallout.componentComplete_world]
  rw [visible_clicks g _ _ hs, hv, List.length_take, Nat.min_eq_left hk]
  simp

/-- Witness for C1: on a fresh view, clicks at (100, 200) then (50, 60) show the
callout and then hide it. -/
theorem C1_visibility_alternates_witness :
    freshWorld.mapView.mouseClick = [] ∧
    (((ShowCallout.componentComplete ⟨none, freshWorld⟩).world.clicks gridFns
        ([⟨100, 200⟩, ⟨50, 60⟩].take 1)).mapView.calloutData.visible = true) ∧
    ¬ (((ShowCallout.componentComplete ⟨none, freshWorld⟩).world.clicks gridFns
        ([⟨100, 200⟩, ⟨50, 60⟩].take 2)).mapView.calloutData.visible = true) :=
  ⟨rfl,
    (C1_visibility_alternates gridFns ⟨none, freshWorld⟩ rfl [⟨100, 200⟩, ⟨50, 60⟩] 1
      (by decide)).mpr (by decide),
    fun hv => absurd
      ((C1_visibility_alternates gridFns ⟨none, freshWorld⟩ rfl [⟨100, 200⟩, ⟨50, 60⟩] 2
        (by decide)).mp hv) (by decide)⟩

/-- C2: a click at screen coordinates (x, y), delivered while the callout is hidden
to a view whose only connected slot is the sample lambda, leaves the detail text
"lat: " ++ decimal x ++ " long: " ++ decimal y, built from the raw screen values;
the text is the same whatever the SDK conversions return. -/
theorem C2_detail_from_screen_values (g : GeometryFns P) (e : QMouseEvent) (w : World P)
    (hs : w.mapView.mouseClick = [Slot.showCalloutMouseClick])
    (hv : w.mapView.calloutData.visible = false) :
    (w.emitMouseClick g e).mapView.calloutData.detail =
      "lat: " ++ QString.number e.x ++ " long: " ++ QString.number e.y := by
  rw [emitMouseClick_of_single g e w hs, mouseClickLambda_of_hidden g e w hv]

/-- Witness for C2: after setup on a fresh view, a click at (100, 200) yields the
detail text "lat: 100 long: 200". -/
theorem C2_detail_from_screen_values_witness :
    (ShowCallout.componentComplete ⟨none, freshWorld⟩).world.mapView.mouseClick =
      [Slot.showCalloutMouseClick] ∧
    (ShowCallout.componentComplete ⟨none, freshWorld⟩).world.mapView.calloutData.visible = false ∧
    ((ShowCallout.componentComplete ⟨none, freshWorld⟩).world.emitMouseClick gridFns
      ⟨100, 200⟩).mapView.calloutData.detail = "lat: 100 long: 200" :=
  ⟨by decide, by decide,
    (C2_detail_from_screen_values gridFns ⟨100, 200⟩
      (ShowCallout.componentComplete ⟨none, freshWorld⟩).world (by decide) (by decide)).trans
      (by decide)⟩

/-- C3: a click delivered while the callout is visible (to a view whose only
connected slot is the sample lambda) clears the visible flag and leaves location,
detail text, title and image URL, and the rest of the world, as they were; the
calls it makes contain no coordinate conversion, and the resulting world is the
same for any click coordinates and any SDK conversion functions. -/
theorem C3_hide_changes_only_visible (g : GeometryFns P) (e : QMouseEvent) (w : World P)
    (hs : w.mapView.mouseClick = [Slot.showCalloutMouseClick])
    (hv : w.mapView.calloutData.visible = true) :
    (w.emitMouseClick g e).mapView.calloutData =
        { w.mapView.calloutData with visible := false } ∧
      (w.emitMouseClick g e).mapView =
        { w.mapView with calloutData := { w.mapView.calloutData with visible := false } } ∧
      (w.emitMouseClick g e).maps = w.maps ∧
      (w.emitMouseClick g e).featureTables = w.featureTables ∧
      (w.emitMouseClick g e).featureLayers = w.featureLayers ∧
      w.callsSince (w.emitMouseClick g e) =
        [Call.setVisible false, Call.qDebug, Call.qDebug, Call.qDebug] ∧
      (∀ c ∈ w.callsSince (w.emitMouseClick g e), c.isConversion = false) ∧
      (∀ (g2 : GeometryFns P) (e2 : QMouseEvent),
        w.emitMouseClick g2 e2 = w.emitMouseClick g e) := by
  have h1 : ∀ (g2 : GeometryFns P) (e2 : QMouseEvent), w.emitMouseClick g2 e2 =
      { w with
        mapView := { w.mapView with calloutData := { w.mapView.calloutData with visible := false } }
        trace := w.trace ++ [Call.setVisible false, Call.qDebug, Call.qDebug, Call.qDebug] } :=
    fun g2 e2 => by
      rw [emitMouseClick_of_single g2 e2 w hs, mouseClickLambda_of_visible g2 e2 w hv]
  have h2 : w.callsSince (w.emitMouseClick g e) =
      [Call.setVisible false, Call.qDebug, Call.qDebug, Call.qDebug] :=
    callsSince_append _ _ _ (by rw [h1 g e])
  refine ⟨by rw [h1 g e], by rw [h1 g e], by rw [h1 g e], by rw [h1 g e], by rw [h1 g e],
    h2, ?_, fun g2 e2 => by rw [h1 g2 e2, h1 g e]⟩
  intro c hc
  rw [h2] at hc
  simp only [List.mem_cons, List.mem_singleton, List.not_mem_nil, or_false] at hc
  rcases hc with rfl | rfl | rfl | rfl <;> rfl

/-- Witness for C3: after setup on a fresh view and a first click at (100, 200), the
callout is visible, and a second click at (50, 60) only clears the visible flag. -/
theorem C3_hide_changes_only_visible_witness :
    ((ShowCallout.componentComplete ⟨none, freshWorld⟩).world.emitMouseClick gridFns
        ⟨100, 200⟩).mapView.mouseClick = [Slot.showCalloutMouseClick] ∧
    ((ShowCallout.componentComplete ⟨none, freshWorld⟩).world.emitMouseClick gridFns
        ⟨100, 200⟩).mapView.calloutData.visible = true ∧
    (((ShowCallout.componentComplete ⟨none, freshWorld⟩).world.emitMouseClick gridFns
        ⟨100, 200⟩).emitMouseClick gridFns ⟨50, 60⟩).mapView.calloutData =
      CalloutData.mk false "Location"
        "qrc:/Samples/DisplayInformation/ShowCallout/RedShinyPin.png"
        (GridPoint.mk 1100 2200 102100) "lat: 100 long: 200" :=
  ⟨by decide, by decide,
    (C3_hide_changes_only_visible gridFns ⟨50, 60⟩
      ((ShowCallout.componentComplete ⟨none, freshWorld⟩).world.emitMouseClick gridFns
        ⟨100, 200⟩)
      (by decide) (by decide)).1.trans (by decide)⟩

/-- C4: a click at screen coordinates (x, y), delivered while the callout is hidden
to a view whose only connected slot is the sample lambda, stores
project (screenToLocation view x y) (SpatialReference 102100) as the callout location
and leaves the callout visible; 102100 is also the spatial reference of the initial
viewpoint that componentComplete gives the map bound to the view. -/
theorem C4_location_is_projected_click (g : GeometryFns P) (e : QMouseEvent) (w : World P)
    (hs : w.mapView.mouseClick = [Slot.showCalloutMouseClick])
    (hv : w.mapView.calloutData.visible = false) :
    (w.emitMouseClick g e).mapView.calloutData.location =
        g.project (g.screenToLocation w.mapView e.x e.y) (SpatialReference.mk 102100) ∧
      (w.emitMouseClick g e).mapView.calloutData.visible = true ∧
      (∀ self : ShowCallout P, ∃ m, self.componentComplete.world.boundMap = some m ∧
        Option.map (fun v => v.targetGeometry.spatialReference) m.initialViewpoint =
          some (SpatialReference.mk 102100)) := by
  rw [emitMouseClick_of_single g e w hs, mouseClickLambda_of_hidden g e w hv]
  refine ⟨rfl, rfl, fun self => ?_⟩
  rw [ShowCallout.componentComplete_world]
  exact ⟨_, getElem?_length_append _ _, rfl⟩

/-- Witness for C4: after setup on a fresh view, a click at (100, 200) stores the
projection to 102100 of the converted screen point and shows the callout. -/
theorem C4_location_is_projected_click_witness :
    (ShowCallout.componentComplete ⟨none, freshWorld⟩).world.mapView.mouseClick =
      [Slot.showCalloutMouseClick] ∧
    (ShowCallout.componentComplete ⟨none, freshWorld⟩).world.mapView.calloutData.visible = false ∧
    ((ShowCallout.componentComplete ⟨none, freshWorld⟩).world.emitMouseClick gridFns
        ⟨100, 200⟩).mapView.calloutData.location = GridPoint.mk 1100 2200 102100 ∧
    ((ShowCallout.componentComplete ⟨none, freshWorld⟩).world.emitMouseClick gridFns
        ⟨100, 200⟩).mapView.calloutData.visible = true :=
  ⟨by decide, by decide,
    (C4_location_is_projected_click gridFns ⟨100, 200⟩
      (ShowCallout.componentComplete ⟨none, freshWorld⟩).world (by decide) (by decide)).1.trans
      (by decide),
    (C4_location_is_projected_click gridFns ⟨100, 200⟩
      (ShowCallout.componentComplete ⟨none, freshWorld⟩).world (by decide) (by decide)).2.1⟩

/-- C5: after `ServiceFeatureTableNoCache::componentComplete`, from any world, the
map bound to the view holds exactly one operational layer: the feature layer just
built (also stored in `m_featureLayer`) over the service feature table of the
configured URL and request mode OnInteractionNoCache.  After a second run of the
hook the map then bound to the view again holds exactly one layer, without
duplicates. -/
theorem C5_exactly_one_layer (self : ServiceFeatureTableNoCache P) :
    (∃ m, self.componentComplete.world.boundMap = some m ∧
      m.operationalLayers = [self.world.featureLayers.length] ∧
      self.componentComplete.m_featureLayer = some self.world.featureLayers.length ∧
      self.componentComplete.world.featureLayers[self.world.featureLayers.length]? =
        some (FeatureLayer.mk self.world.featureTables.length) ∧
      self.componentComplete.world.featureTables[self.world.featureTables.length]? =
        some (ServiceFeatureTable.mk
          "http://sampleserver6.arcgisonline.com/arcgis/rest/services/PoolPermits/FeatureServer/0"
          FeatureRequestMode.OnInteractionNoCache)) ∧
    (∃ m, self.componentComplete.componentComplete.world.boundMap = some m ∧
      m.operationalLayers = [self.world.featureLayers.length + 1] ∧
      m.operationalLayers.length = 1 ∧ m.operationalLayers.Nodup) := by
  constructor
  · rw [ServiceFeatureTableNoCache.componentComplete_eq]
    exact ⟨_, getElem?_length_append _ _, rfl, rfl, getElem?_length_append _ _,
      getElem?_length_append _ _⟩
  · rw [ServiceFeatureTableNoCache.componentComplete_eq self.componentComplete,
      ServiceFeatureTableNoCache.componentComplete_eq self]
    refine ⟨_, getElem?_length_append _ _, ?_, rfl, List.nodup_singleton _⟩
    simp

/-- C6: after either `componentComplete`, the map bound to the view has the initial
viewpoint Envelope(-13075816.4047166, 4014771.46954516, -13073005.6797177,
4016869.78617381, SpatialReference(102100)), and after any sequence of clicks the
map bound to the view, hence its initial viewpoint, is the same. -/
theorem C6_initial_viewpoint_fixed (g : GeometryFns P) (a : ShowCallout P)
    (b : ServiceFeatureTableNoCache P) (es : List QMouseEvent) :
    (∃ m, a.componentComplete.world.boundMap = some m ∧
      (a.componentComplete.world.clicks g es).boundMap = some m ∧
      m.initialViewpoint = some (Viewpoint.mk (Envelope.mk
        (Decimal.mk (-130758164047166) 7) (Decimal.mk 401477146954516 8)
        (Decimal.mk (-130730056797177) 7) (Decimal.mk 401686978617381 8)
        (SpatialReference.mk 102100)))) ∧
    (∃ m, b.componentComplete.world.boundMap = some m ∧
      (b.componentComplete.world.clicks g es).boundMap = some m ∧
      m.initialViewpoint = some (Viewpoint.mk (Envelope.mk
        (Decimal.mk (-130758164047166) 7) (Decimal.mk 401477146954516 8)
        (Decimal.mk (-130730056797177) 7) (Decimal.mk 401686978617381 8)
        (SpatialReference.mk 102100)))) := by
  constructor
  · have h := boundMap_eq_of_frame (frame_clicks g es a.componentComplete.world)
    rw [h, ShowCallout.componentComplete_world]
    exact ⟨_, getElem?_length_append _ _, getElem?_length_append _ _, rfl⟩
  · have h := boundMap_eq_of_frame (frame_clicks g es b.componentComplete.world)
    rw [h, ServiceFeatureTableNoCache.componentComplete_eq]
    exact ⟨_, getElem?_length_append _ _, getElem?_length_append _ _, rfl⟩

/-- C7: among the calls made by `ShowCallout::componentComplete`, the one write of
the wrap-around mode sets it to Disabled and comes before the one connection of the
click lambda; no wrap-around write follows the connection, the lambda makes none,
and after any sequence of clicks the wrap-around mode is Disabled. -/
theorem C7_wrap_disabled_before_handler (g : GeometryFns P) (self : ShowCallout P) :
    occursBefore Call.isSetWrapAroundMode Call.isConnectMouseClick
        (self.world.callsSince self.componentComplete.world) = true ∧
      (self.world.callsSince self.componentComplete.world).filter Call.isSetWrapAroundMode =
        [Call.setWrapAroundMode WrapAroundMode.Disabled] ∧
      (self.world.callsSince self.componentComplete.world).filter Call.isConnectMouseClick =
        [Call.connectMouseClick Slot.showCalloutMouseClick] ∧
      occursBefore Call.isConnectMouseClick Call.isSetWrapAroundMode
        (self.world.callsSince self.componentComplete.world) = false ∧
      (∀ (e : QMouseEvent) (w : World P),
        ∀ c ∈ w.callsSince (ShowCallout.mouseClickLambda g e w),
          c.isSetWrapAroundMode = false) ∧
      (∀ es : List QMouseEvent,
        (self.componentComplete.world.clicks g es).mapView.wrapAroundMode =
          WrapAroundMode.Disabled) := by
  have ht := callsSince_append self.world self.componentComplete.world _
    (by rw [ShowCallout.componentComplete_world])
  refine ⟨by rw [ht]; rfl, by rw [ht]; rfl, by rw [ht]; rfl, by rw [ht]; rfl, ?_, ?_⟩
  · intro e w c hc
    cases hv : w.mapView.calloutData.visible
    · rw [callsSince_append w _ _ (by rw [mouseClickLambda_of_hidden g e w hv])] at hc
      simp only [List.mem_cons, List.mem_singleton, List.not_mem_nil, or_false] at hc
      rcases hc with rfl | rfl | rfl | rfl | rfl | rfl | rfl | rfl <;> rfl
    · rw [callsSince_append w _ _ (by rw [mouseClickLambda_of_visible g e w hv])] at hc
      simp only [List.mem_cons, List.mem_singleton, List.not_mem_nil, or_false] at hc
      rcases hc with rfl | rfl | rfl | rfl <;> rfl
  · intro es
    have h := congrArg (fun f => f.1) (frame_clicks g es self.componentComplete.world)
    simp only [frame] at h
    rw [h, ShowCallout.componentComplete_world]

/-- C8: right after `ShowCallout::componentComplete` the callout is hidden, its title
is "Location" and its image URL is the RedShinyPin resource; after any sequence of
clicks the title and the image URL still have these values. -/
theorem C8_title_and_image_fixed (g : GeometryFns P) (self : ShowCallout P)
    (es : List QMouseEvent) :
    self.componentComplete.world.mapView.calloutData.visible = false ∧
      self.componentComplete.world.mapView.calloutData.title = "Location" ∧
      self.componentComplete.world.mapView.calloutData.imageUrl =
        "qrc:/Samples/DisplayInformation/ShowCallout/RedShinyPin.png" ∧
      (self.componentComplete.world.clicks g es).mapView.calloutData.title = "Location" ∧
      (self.componentComplete.world.clicks g es).mapView.calloutData.imageUrl =
        "qrc:/Samples/DisplayInformation/ShowCallout/RedShinyPin.png" := by
  have h := frame_clicks g es self.componentComplete.world
  have h4 := congrArg (fun f => f.2.2.2.1) h
  have h5 := congrArg (fun f => f.2.2.2.2.1) h
  simp only [frame] at h4 h5
  rw [h4, h5, ShowCallout.componentComplete_world]
  exact ⟨rfl, rfl, rfl, rfl, rfl⟩

/-- C9 as stated fails: on a fresh world, in the calls made by
`ServiceFeatureTableNoCache::componentComplete`, no append of an operational layer
is followed by a `setMap`. -/
theorem C9_append_before_setMap_fails :
    ¬ (occursBefore Call.isAppendOperationalLayer Call.isSetMap
        (freshWorld.callsSince
          (ServiceFeatureTableNoCache.componentComplete
            ⟨none, none, none, freshWorld⟩).world) = true) := by
  decide

/-- C9, amended: the calls made by `ServiceFeatureTableNoCache::componentComplete`
are, in this order: base hook, findChild, setWrapAroundMode, new Map,
setInitialViewpoint, setMap, new ServiceFeatureTable, setFeatureRequestMode, new
FeatureLayer, append of the layer to the map.  So the map is bound to the view
first, and the data source, the layer and the append come after it, in that order. -/
theorem C9_setMap_before_append (self : ServiceFeatureTableNoCache P) :
    self.world.callsSince self.componentComplete.world =
        [Call.componentCompleteBase, Call.findChild "mapView",
         Call.setWrapAroundMode WrapAroundMode.Disabled,
         Call.newMap self.world.maps.length Basemap.topographic,
         Call.setInitialViewpoint self.world.maps.length
           (Viewpoint.mk ServiceFeatureTableNoCache.initialEnvelope),
         Call.setMap self.world.maps.length,
         Call.newServiceFeatureTable self.world.featureTables.length
           "http://sampleserver6.arcgisonline.com/arcgis/rest/services/PoolPermits/FeatureServer/0",
         Call.setFeatureRequestMode self.world.featureTables.length
           FeatureRequestMode.OnInteractionNoCache,
         Call.newFeatureLayer self.world.featureLayers.length self.world.featureTables.length,
         Call.appendOperationalLayer self.world.maps.length self.world.featureLayers.length] ∧
      occursBefore Call.isSetMap Call.isAppendOperationalLayer
        (self.world.callsSince self.componentComplete.world) = true ∧
      occursBefore Call.isAppendOperationalLayer Call.isSetMap
        (self.world.callsSince self.componentComplete.world) = false := by
  have ht := callsSince_append self.world self.componentComplete.world _
    (by rw [ServiceFeatureTableNoCache.componentComplete_eq])
  refine ⟨by rw [ht]; rfl, by rw [ht]; rfl, by rw [ht]; rfl⟩

/-- C10: after `ShowCallout::componentComplete` on a view with no slot connected yet
and a non-empty sequence of n clicks, let m be the last odd position (m = n for odd
n, m = n - 1 for even n) and c the m-th click.  The detail text is
"lat: " ++ decimal c.x ++ " long: " ++ decimal c.y and the location is
project (screenToLocation view c.x c.y) (SpatialReference 102100), where view is the
view as the first m - 1 clicks left it.  Any other sequence of the same length with
the same clicks at the odd positions leaves the same callout data. -/
theorem C10_last_odd_click_decides (g : GeometryFns P) (self : ShowCallout P)
    (h : self.world.mapView.mouseClick = []) (es : List QMouseEvent) (hne : es ≠ []) :
    (∃ c, es[lastOddIndex es.length - 1]? = some c ∧
      (self.componentComplete.world.clicks g es).mapView.calloutData.detail =
        "lat: " ++ QString.number c.x ++ " long: " ++ QString.number c.y ∧
      (self.componentComplete.world.clicks g es).mapView.calloutData.location =
        g.project
          (g.screenToLocation
            (self.componentComplete.world.clicks g
              (es.take (lastOddIndex es.length - 1))).mapView c.x c.y)
          (SpatialReference.mk 102100)) ∧
    (∀ fs : List QMouseEvent, fs.length = es.length →
      (∀ i, i % 2 = 0 → fs[i]? = es[i]?) →
      (self.componentComplete.world.clicks g fs).mapView.calloutData =
        (self.componentComplete.world.clicks g es).mapView.calloutData) := by
  have hs : self.componentComplete.world.mapView.mouseClick = [Slot.showCalloutMouseClick] := by
    rw [ShowCallout.componentComplete_world]; simp [h]
  have hv : self.componentComplete.world.mapView.calloutData.visible = false := by
    rw [ShowCallout.componentComplete_world]
  have hpos : 0 < es.length := List.length_pos.mpr hne
  refine ⟨?_, fun fs hl ha => by
    rw [clicks_congr_of_odd_agree g es fs _ hs hv hl ha]⟩
  generalize self.componentComplete.world = w at hs hv
  by_cases hodd : es.length % 2 = 1
  · have hi : lastOddIndex es.length - 1 + 1 = es.length := by
      simp only [lastOddIndex, if_pos hodd]; omega
    obtain ⟨c, hc, hsplit⟩ := split_last_one es _ hi
    refine ⟨c, hc, ?_⟩
    generalize lastOddIndex es.length - 1 = i at hi hc hsplit
    have hlen : (es.take i).length % 2 = 0 := by
      rw [List.length_take]; omega
    have hs2 : (w.clicks g (es.take i)).mapView.mouseClick = [Slot.showCalloutMouseClick] := by
      rw [mouseClick_clicks]; exact hs
    have hv2 := hidden_after_even g (es.take i) w hs hv hlen
    have hfinal : w.clicks g es = (w.clicks g (es.take i)).emitMouseClick g c := by
      conv_lhs => rw [hsplit]
      rw [clicks_append, clicks_single]
    rw [hfinal, emitMouseClick_of_single g c _ hs2, mouseClickLambda_of_hidden g c _ hv2]
    exact ⟨rfl, rfl⟩
  · have hi : lastOddIndex es.length - 1 + 2 = es.length := by
      simp only [lastOddIndex, if_neg hodd]; omega
    obtain ⟨c, d, hc, hsplit⟩ := split_last_two es _ hi
    refine ⟨c, hc, ?_⟩
    generalize lastOddIndex es.length - 1 = i at hi hc hsplit
    have hlen : (es.take i).length % 2 = 0 := by
      rw [List.length_take]; omega
    have hs2 : (w.clicks g (es.take i)).mapView.mouseClick = [Slot.showCalloutMouseClick] := by
      rw [mouseClick_clicks]; exact hs
    have hv2 := hidden_after_even g (es.take i) w hs hv hlen
    have hfinal : w.clicks g es = (w.clicks g (es.take i)).clicks g [c, d] := by
      conv_lhs => rw [hsplit]
      rw [clicks_append]
    rw [hfinal, calloutData_pair g c d _ hs2 hv2]
    exact ⟨rfl, rfl⟩

/-- Witness for C10: on a fresh view, after the four clicks (100, 200), (50, 60),
(7, 8), (9, 10) the third click decides the detail text and the location. -/
theorem C10_last_odd_click_decides_witness :
    freshWorld.mapView.mouseClick = [] ∧
    ((ShowCallout.componentComplete ⟨none, freshWorld⟩).world.clicks gridFns
      [⟨100, 200⟩, ⟨50, 60⟩, ⟨7, 8⟩, ⟨9, 10⟩]).mapView.calloutData.detail = "lat: 7 long: 8" ∧
    ((ShowCallout.componentComplete ⟨none, freshWorld⟩).world.clicks gridFns
      [⟨100, 200⟩, ⟨50, 60⟩, ⟨7, 8⟩, ⟨9, 10⟩]).mapView.calloutData.location =
        GridPoint.mk 1007 2008 102100 := by
  obtain ⟨c, hc, hd, hl⟩ :=
    (C10_last_odd_click_decides gridFns ⟨none, freshWorld⟩ rfl
      [⟨100, 200⟩, ⟨50, 60⟩, ⟨7, 8⟩, ⟨9, 10⟩] (by decide)).1
  have hc2 : c = ⟨7, 8⟩ := (Option.some.inj hc).symm
  subst hc2
  exact ⟨rfl, hd.trans (by decide), hl.trans (by decide)⟩

end Claims

end ArcGIS
